import Mathlib

/-!
Verification development for the telegram_bot_kk repository.

The Python sources are shallowly embedded: pure data flow becomes Lean
functions, mutable per-key dictionaries become explicit state-passing
functions, Python exceptions become an `Except` result, and external
collaborators (the JSON decoder of the standard library, the network
transport, the random source, wall-clock time) become explicit inputs.
Numeric values are embedded as `Rat` / `Int` / `Nat`.
-/

namespace Py

/-- PyExc enumerates the Python exception kinds that the embedded control
flow distinguishes: `json.JSONDecodeError`, `KeyError`, `TypeError`,
`ValueError`, `pydantic.ValidationError` (a `ValueError` subclass),
`AttributeError`, and the repository's own `exceptions.APIError`. -/
inductive PyExc where
  | jsonDecodeError
  | keyError
  | typeError
  | valueError
  | validationError
  | attributeError
  | apiError (msg : String)
deriving Repr, DecidableEq

/-- Json is the value domain of Python's `json.loads`: null, booleans,
numbers (embedded as rationals), strings, arrays and objects. -/
inductive Json where
  | null
  | bool (b : Bool)
  | num (q : Rat)
  | str (s : String)
  | arr (xs : List Json)
  | obj (kvs : List (String × Json))

/-- pyStrip models Python's `str.strip()`: drop leading and trailing
whitespace.  It works on the character list underlying the string so
that it evaluates by kernel reduction. -/
def pyStrip (s : String) : String :=
  ⟨((s.data.dropWhile Char.isWhitespace).reverse.dropWhile Char.isWhitespace).reverse⟩

/-- pyStartsWith models Python's `str.startswith`. -/
def pyStartsWith (s p : String) : Bool :=
  s.data.take p.data.length = p.data

/-- pyEndsWith models Python's `str.endswith`. -/
def pyEndsWith (s p : String) : Bool :=
  s.data.drop (s.data.length - p.data.length) = p.data ∧ p.data.length ≤ s.data.length

/-- pyDropChars models Python's slicing `s[n:]`. -/
def pyDropChars (s : String) (n : Nat) : String :=
  ⟨s.data.drop n⟩

/-- pyDropRightChars models Python's slicing `s[:-n]` for `n ≤ len(s)`. -/
def pyDropRightChars (s : String) (n : Nat) : String :=
  ⟨s.data.take (s.data.length - n)⟩

/-- pyToLower models Python's `str.lower()` on ASCII text. -/
def pyToLower (s : String) : String :=
  ⟨s.data.map Char.toLower⟩

/-- dictGet embeds Python's `dict.get(k, d)` on a decoded JSON object.
`json.loads` keeps the last occurrence of a duplicated key, so lookup
scans the reversed key order. -/
def dictGet (kvs : List (String × Json)) (k : String) (d : Json) : Json :=
  match kvs.reverse.find? (fun kv => kv.1 = k) with
  | some kv => kv.2
  | none => d

/-- digitsVal reads a non-empty all-digit character list as a natural
number; any other list yields `none`. -/
def digitsVal (cs : List Char) : Option Nat :=
  if cs ≠ [] ∧ cs.all Char.isDigit then
    some (cs.foldl (fun a c => a * 10 + (c.toNat - 48)) 0)
  else none

/-- parseMantissa reads `digits`, `digits.digits`, `digits.` or `.digits`
(at least one digit in total) as a rational value. -/
def parseMantissa (cs : List Char) : Option Rat :=
  let intPart := cs.takeWhile (fun c => c ≠ '.')
  let rest := cs.dropWhile (fun c => c ≠ '.')
  match rest with
  | [] => (digitsVal intPart).map (fun n => (n : Rat))
  | _ :: frac =>
    if frac = [] then (digitsVal intPart).map (fun n => (n : Rat))
    else if intPart = [] then
      (digitsVal frac).map (fun f => (f : Rat) / (10 : Rat) ^ frac.length)
    else
      match digitsVal intPart, digitsVal frac with
      | some n, some f => some ((n : Rat) + (f : Rat) / (10 : Rat) ^ frac.length)
      | _, _ => none

/-- parseSign splits an optional leading sign off a character list. -/
def parseSign (cs : List Char) : Rat × List Char :=
  match cs with
  | '-' :: rest => (-1, rest)
  | '+' :: rest => (1, rest)
  | _ => (1, cs)

/-- pyParseFloat models Python's `float(str)` on finite decimal notation:
optional surrounding whitespace, an optional sign, a mantissa and an
optional exponent part.  Special values (`inf`, `nan`) and underscore
separators are outside the rational embedding and yield `none`. -/
def pyParseFloat (s : String) : Option Rat :=
  let cs := (pyStrip s).data
  let (sgn, cs) := parseSign cs
  let mantPart := cs.takeWhile (fun c => c ≠ 'e' ∧ c ≠ 'E')
  let expRest := cs.dropWhile (fun c => c ≠ 'e' ∧ c ≠ 'E')
  match parseMantissa mantPart with
  | none => none
  | some m =>
    match expRest with
    | [] => some (sgn * m)
    | _ :: expChars =>
      let (esgn, eds) := parseSign expChars
      match digitsVal eds with
      | none => none
      | some e =>
        if esgn = 1 then some (sgn * m * (10 : Rat) ^ (e : Int))
        else some (sgn * m * (10 : Rat) ^ (-(e : Int)))

/-- pyFloat models the builtin `float(x)` applied to a decoded JSON value:
numbers pass through, booleans become 0 or 1, strings are parsed (a
non-numeric string raises `ValueError`), anything else raises
`TypeError`. -/
def pyFloat : Json → Except PyExc Rat
  | .num q => .ok q
  | .bool b => .ok (if b then 1 else 0)
  | .str s =>
    match pyParseFloat s with
    | some q => .ok q
    | none => .error .valueError
  | _ => .error .typeError

/-- pydanticBool models pydantic v2 lax coercion into a `bool` field:
booleans pass through, the numbers 0 and 1 coerce, the usual truthy and
falsy strings coerce, anything else fails validation. -/
def pydanticBool : Json → Except PyExc Bool
  | .bool b => .ok b
  | .num q =>
    if q = 0 then .ok false
    else if q = 1 then .ok true
    else .error .validationError
  | .str s =>
    let ls := pyToLower s
    if ls = "true" ∨ ls = "t" ∨ ls = "yes" ∨ ls = "y" ∨ ls = "on" ∨ ls = "1" then .ok true
    else if ls = "false" ∨ ls = "f" ∨ ls = "no" ∨ ls = "n" ∨ ls = "off" ∨ ls = "0" then .ok false
    else .error .validationError
  | _ => .error .validationError

/-- pydanticOptStr models pydantic v2 coercion into an `Optional[str]`
field: null becomes `none`, strings pass through, anything else fails
validation (pydantic v2 does not stringify numbers). -/
def pydanticOptStr : Json → Except PyExc (Option String)
  | .null => .ok none
  | .str s => .ok (some s)
  | _ => .error .validationError

/-- pydanticFloat models pydantic v2 lax coercion into a `float` field:
numbers pass through, numeric strings are parsed, everything else
(including booleans) fails validation. -/
def pydanticFloat : Json → Except PyExc Rat
  | .num q => .ok q
  | .str s =>
    match pyParseFloat s with
    | some q => .ok q
    | none => .error .validationError
  | _ => .error .validationError

end Py

/-- TopicAnalysisResult embeds `models/analysis.py:TopicAnalysisResult`:
appropriateness flag, optional suggested topic, and a confidence value
whose pydantic field declares the bounds `ge=0.0, le=1.0`. -/
structure TopicAnalysisResult where
  is_appropriate : Bool
  suggested_topic : Option String
  confidence : Rat
deriving Repr, DecidableEq

/-- mkTopicAnalysisResult embeds pydantic validation on construction of a
`TopicAnalysisResult`: a confidence outside `[0, 1]` raises a
`ValidationError` instead of producing a value (the declared bounds
reject, they do not clamp). -/
def mkTopicAnalysisResult (ia : Bool) (st : Option String) (conf : Rat) :
    Except Py.PyExc TopicAnalysisResult :=
  if 0 ≤ conf ∧ conf ≤ 1 then .ok ⟨ia, st, conf⟩ else .error .validationError

namespace BaseAi

/-- clean_json_from_response embeds
`BaseAiClient._clean_json_from_response`: strip whitespace, drop a
leading markdown marker, drop a trailing marker, strip again. -/
def clean_json_from_response (response_text : String) : String :=
  let r := Py.pyStrip response_text
  let r := if Py.pyStartsWith r "```json" then Py.pyDropChars r 7 else r
  let r := if Py.pyEndsWith r "```" then Py.pyDropRightChars r 3 else r
  Py.pyStrip r

/-- analyzeBody embeds the try-block of
`BaseAiClient.analyze_topic_compliance` after text generation: an empty
reply raises `APIError`; otherwise the cleaned reply is decoded (the
standard-library JSON decoder is the explicit `decode` input, `none`
meaning `json.JSONDecodeError`); a non-object decode makes
`parsed_response.get` raise `AttributeError`; the `float(...)` argument
conversion runs before the pydantic field validations of the result
constructor.  The `reason` keyword of the source is dropped by pydantic
(the model declares no such field). -/
def analyzeBody (decode : String → Option Py.Json) (response_text : String) :
    Except Py.PyExc TopicAnalysisResult :=
  if response_text = "" then .error (.apiError "Empty response from AI API")
  else
    match decode (clean_json_from_response response_text) with
    | none => .error .jsonDecodeError
    | some (.obj kvs) =>
      match Py.pyFloat (Py.dictGet kvs "confidence" (.num (1/2))) with
      | .error e => .error e
      | .ok conf =>
        match Py.pydanticBool (Py.dictGet kvs "is_appropriate" (.bool true)) with
        | .error e => .error e
        | .ok ia =>
          match Py.pydanticOptStr (Py.dictGet kvs "suggested_topic" .null) with
          | .error e => .error e
          | .ok st => mkTopicAnalysisResult ia st conf
    | some _ => .error .attributeError

/-- caughtByParseHandler lists the exception kinds caught by the
`except (json.JSONDecodeError, KeyError, TypeError)` clause of
`BaseAiClient.analyze_topic_compliance`; every other exception is
re-raised by the final `except Exception: raise` clause. -/
def caughtByParseHandler : Py.PyExc → Bool
  | .jsonDecodeError => true
  | .keyError => true
  | .typeError => true
  | _ => false

/-- parseFallbackResult is the conservative default built in the parse
failure handler of `BaseAiClient.analyze_topic_compliance`:
appropriate, confidence zero. -/
def parseFallbackResult : TopicAnalysisResult :=
  ⟨true, none, 0⟩

/-- analyze_topic_compliance embeds
`BaseAiClient.analyze_topic_compliance` from the produced model reply
onward: the try-block body wrapped in its exception handlers. -/
def analyze_topic_compliance (decode : String → Option Py.Json)
    (response_text : String) : Except Py.PyExc TopicAnalysisResult :=
  match analyzeBody decode response_text with
  | .ok r => .ok r
  | .error e => if caughtByParseHandler e then .ok parseFallbackResult else .error e

end BaseAi

namespace LiteLLM

/-- clean_json_response embeds `LiteLLMClient._clean_json_response`: only
a reply that starts with a markdown fence is unwrapped. -/
def clean_json_response (response : String) : String :=
  let r := Py.pyStrip response
  if Py.pyStartsWith r "```" then
    let r := if Py.pyStartsWith r "```json" then Py.pyDropChars r 7 else Py.pyDropChars r 3
    let r := if Py.pyEndsWith r "```" then Py.pyDropRightChars r 3 else r
    Py.pyStrip r
  else r

/-- analyzeBody embeds the try-block of
`LiteLLMClient.analyze_topic_compliance` after the routed request: the
cleaned reply is decoded (`decode` being the standard-library JSON
decoder, `none` meaning `json.JSONDecodeError`); `is_appropriate` falls
back to `is_compliant` and then to `False`; `confidence` defaults to 0;
no `suggested_topic` is ever passed to the result constructor. -/
def analyzeBody (decode : String → Option Py.Json) (response : String) :
    Except Py.PyExc TopicAnalysisResult :=
  match decode (clean_json_response response) with
  | none => .error .jsonDecodeError
  | some (.obj kvs) =>
    match Py.pydanticBool
        (Py.dictGet kvs "is_appropriate" (Py.dictGet kvs "is_compliant" (.bool false))) with
    | .error e => .error e
    | .ok ia =>
      match Py.pydanticFloat (Py.dictGet kvs "confidence" (.num 0)) with
      | .error e => .error e
      | .ok conf => mkTopicAnalysisResult ia none conf
  | some _ => .error .attributeError

/-- parseFallbackResult is the default built in the
`except (json.JSONDecodeError, KeyError)` handler of
`LiteLLMClient.analyze_topic_compliance`: NOT appropriate, confidence
zero. -/
def parseFallbackResult : TopicAnalysisResult :=
  ⟨false, none, 0⟩

/-- caughtByParseHandler lists the exception kinds caught by the
`except (json.JSONDecodeError, KeyError)` clause of
`LiteLLMClient.analyze_topic_compliance`. -/
def caughtByParseHandler : Py.PyExc → Bool
  | .jsonDecodeError => true
  | .keyError => true
  | _ => false

/-- analyze_topic_compliance embeds
`LiteLLMClient.analyze_topic_compliance` from the produced model reply
onward: the try-block body wrapped in its exception handler. -/
def analyze_topic_compliance (decode : String → Option Py.Json)
    (response : String) : Except Py.PyExc TopicAnalysisResult :=
  match analyzeBody decode response with
  | .ok r => .ok r
  | .error e => if caughtByParseHandler e then .ok parseFallbackResult else .error e

end LiteLLM

namespace AiConfig

/-- AIProviderName embeds the `models/ai_config.py` provider enum. -/
inductive AIProviderName where
  | gemini
  | groq
  | openai
  | claude
deriving Repr, DecidableEq

/-- value gives the string value of each `AIProviderName` enum member. -/
def AIProviderName.value : AIProviderName → String
  | .gemini => "gemini"
  | .groq => "groq"
  | .openai => "openai"
  | .claude => "claude"

/-- ModelConfig embeds the `models/ai_config.py` model descriptor (the
free-form `extra_params` dict is not needed by any claim and is
omitted). -/
structure ModelConfig where
  provider : AIProviderName
  model_name : String
  api_key : Option String := none
  temperature : Rat := 7/10
  max_tokens : Option Nat := none
deriving Repr, DecidableEq

/-- mkModelPoolConfig embeds `ModelPoolConfig.__post_init__`: an empty
pool is rejected, and two descriptors sharing the
(provider, model_name, api_key) triple are rejected. -/
def mkModelPoolConfig (models : List ModelConfig) :
    Except String (List ModelConfig) :=
  if models = [] then .error "Model pool must contain at least one model"
  else if (models.map (fun m => (m.provider, m.model_name, m.api_key))).Nodup then
    .ok models
  else .error "Model pool contains duplicate model configurations"

/-- get_all_available_models embeds
`services/ai/model_pool_manager.py:ModelPoolManager.get_all_available_models`:
one identifier string per configured descriptor. -/
def get_all_available_models (models : List ModelConfig) : List String :=
  models.map (fun m => m.provider.value ++ ":" ++ m.model_name)

end AiConfig

namespace ChatMgr

/-- TopicInfo embeds `services/chat_manager.py:TopicInfo`. -/
structure TopicInfo where
  name : String
  description : String
  topic_id : Option Int := none
  custom_emoji_id : Option String := none
deriving Repr, DecidableEq

/-- ViolationRecord embeds `services/chat_manager.py:ViolationRecord`;
timestamps are embedded as integer minutes. -/
structure ViolationRecord where
  user_id : Int
  topic_name : String
  message_id : Int
  suggested_topic : String
  timestamp : Int
deriving Repr, DecidableEq

/-- ViolationRecords embeds the `violation_records` dictionary of
`ChatManager`: per-topic deques, `none` for a topic key never touched. -/
def ViolationRecords : Type :=
  String → Option (List ViolationRecord)

/-- VIOLATION_MAX_LENGTH is the default deque capacity from
`config/settings.py`. -/
def VIOLATION_MAX_LENGTH : Nat := 10

/-- VIOLATION_TIME_WINDOW is the default counting window in minutes from
`config/settings.py`. -/
def VIOLATION_TIME_WINDOW : Int := 60

/-- dequeAppend embeds `collections.deque(maxlen=L).append`: the new
element goes to the right, and elements are evicted from the left while
over capacity. -/
def dequeAppend (maxlen : Nat) (q : List ViolationRecord) (v : ViolationRecord) :
    List ViolationRecord :=
  if maxlen < (q ++ [v]).length then (q ++ [v]).drop ((q ++ [v]).length - maxlen)
  else q ++ [v]

/-- record_violation embeds `ChatManager.record_violation`: initialise the
topic's deque on first use, then append a record stamped with the
current time. -/
def record_violation (recs : ViolationRecords) (user_id : Int)
    (topic_name : String) (message_id : Int) (suggested_topic : String)
    (now : Int) : ViolationRecords :=
  let v : ViolationRecord := ⟨user_id, topic_name, message_id, suggested_topic, now⟩
  let q := (recs topic_name).getD []
  fun k => if k = topic_name then some (dequeAppend VIOLATION_MAX_LENGTH q v) else recs k

/-- get_recent_violations embeds `ChatManager.get_recent_violations`: an
untouched topic yields the empty list; otherwise records strictly newer
than `now` minus the window are kept. -/
def get_recent_violations (recs : ViolationRecords) (topic_name : String)
    (time_window_minutes : Option Int) (now : Int) : List ViolationRecord :=
  let w := time_window_minutes.getD VIOLATION_TIME_WINDOW
  match recs topic_name with
  | none => []
  | some q => q.filter (fun v => now - w < v.timestamp)

/-- get_violation_count embeds `ChatManager.get_violation_count`. -/
def get_violation_count (recs : ViolationRecords) (topic_name : String)
    (now : Int) : Nat :=
  (get_recent_violations recs topic_name none now).length

/-- reset_violations embeds `ChatManager.reset_violations`: the topic's
deque is replaced by a fresh empty one. -/
def reset_violations (recs : ViolationRecords) (topic_name : String) :
    ViolationRecords :=
  fun k => if k = topic_name then some [] else recs k

/-- analyze_record_step embeds the recording decision at the end of
`ChatManager.analyze_message_topic`: a violation is recorded only when
the analysis result is not appropriate AND carries a truthy (present,
non-empty) suggested topic AND that suggestion differs from the current
topic. -/
def analyze_record_step (recs : ViolationRecords) (current_topic : String)
    (topic_name : String) (user_id : Int) (message_id : Int)
    (result : TopicAnalysisResult) (now : Int) : ViolationRecords :=
  match result.suggested_topic with
  | some st =>
    if result.is_appropriate = false ∧ st ≠ "" ∧ st ≠ current_topic then
      record_violation recs user_id topic_name message_id st now
    else recs
  | none => recs

end ChatMgr

namespace RespMgr

/-- ReactionKind distinguishes the two reaction payloads that
`ResponseManager` sends through the transport. -/
inductive ReactionKind where
  | defaultEmoji
  | customEmoji (id : String)
deriving Repr, DecidableEq

/-- OutCall abstracts one outbound transport call of `ResponseManager`:
a `set_message_reaction` call or one of the two kinds of reply. -/
inductive OutCall where
  | setReaction (kind : ReactionKind)
  | replyPolite (suggested : String)
  | replyAngry
deriving Repr, DecidableEq

/-- reaction_levels embeds the `settings.reaction_levels` table: counts 1
through 7 map to the reaction-only tier, every other count is absent. -/
def reaction_levels (count : Nat) : Option String :=
  if 1 ≤ count ∧ count ≤ 7 then some "reaction_only" else none

/-- add_reaction embeds `ResponseManager._add_reaction`: one
default-emoji reaction call (its transport failure is swallowed). -/
def add_reaction : List OutCall :=
  [.setReaction .defaultEmoji]

/-- add_topic_reaction embeds `ResponseManager._add_topic_reaction`:
prefer the suggested topic's custom emoji, falling back to the default
reaction when the topic is unknown, has no custom emoji, or the
transport rejects the custom reaction (`customOk` is the transport's
verdict on that call). -/
def add_topic_reaction (topic_info : Option ChatMgr.TopicInfo)
    (customOk : Bool) : List OutCall :=
  match topic_info with
  | none => add_reaction
  | some ti =>
    match ti.custom_emoji_id with
    | none => add_reaction
    | some e =>
      if customOk then [.setReaction (.customEmoji e)]
      else [.setReaction (.customEmoji e)] ++ add_reaction

/-- handle_topic_violation embeds
`ResponseManager.handle_topic_violation`, returning the trace of
outbound transport calls it attempts: the violation count picks a
response tier (absent counts default to reaction-only), and a suggested
topic equal to the current topic short-circuits to no call at all. -/
def handle_topic_violation (recs : ChatMgr.ViolationRecords) (now : Int)
    (existing_topics : String → Option ChatMgr.TopicInfo) (customOk : Bool)
    (suggested_topic : String) (current_topic_name : String) : List OutCall :=
  let violation_count := ChatMgr.get_violation_count recs current_topic_name now
  let response_type := (reaction_levels violation_count).getD "reaction_only"
  if suggested_topic = current_topic_name then []
  else if response_type = "reaction_only" then
    add_topic_reaction (existing_topics suggested_topic) customOk
  else if response_type = "polite_warning" then [.replyPolite suggested_topic]
  else if response_type = "angry_warning" then [.replyAngry]
  else []

end RespMgr

namespace LiteLLM

/-- ModelConfig embeds `utils/litellm_client.py:ModelConfig` (the
free-form `extra_params` dict and the proxy URL do not influence any
claim and are omitted). -/
structure ModelConfig where
  name : String
  provider : String
  api_key : String
  temperature : Rat := 7/10
  max_tokens : Option Nat := none
  timeout : Nat := 30
  max_retries : Nat := 3
  priority : Int := 1
  tags : List String := []
deriving Repr, DecidableEq

/-- model_id embeds the `ModelConfig.model_id` property. -/
def ModelConfig.model_id (m : ModelConfig) : String :=
  if m.provider = "openai" ∨ m.provider = "anthropic" ∨ m.provider = "cohere" then m.name
  else m.provider ++ "/" ++ m.name

/-- RouterConfig embeds `utils/litellm_client.py:RouterConfig`. -/
structure RouterConfig where
  strategy : String := "round_robin"
  fallback_enabled : Bool := true
  max_fallback_attempts : Nat := 3
deriving Repr, DecidableEq

/-- ModelState embeds one entry of the `model_states` dictionary (the
never-written `last_used` field is omitted). -/
structure ModelState where
  available : Bool := true
  last_error : Option String := none
  error_count : Nat := 0
  total_requests : Nat := 0
  failed_requests : Nat := 0
deriving Repr, DecidableEq

/-- States embeds the `model_states` dictionary as a total map from
`model_id` keys; the constructor initialises every key to the default
healthy state, so absent keys need no separate representation. -/
def States : Type :=
  String → ModelState

/-- initState is the health state every model starts with. -/
def initState : ModelState :=
  {}

/-- initStates is the `model_states` dictionary right after `__init__`. -/
def initStates : States :=
  fun _ => initState

/-- updState writes one key of the `model_states` dictionary. -/
def updState (st : States) (id : String) (s : ModelState) : States :=
  fun k => if k = id then s else st k

/-- Outcome is the externally determined result of one provider call
issued by `_make_request`: the generated text, or the message of the
exception the backend raised. -/
inductive Outcome where
  | success (text : String)
  | failure (err : String)
deriving Repr, DecidableEq

/-- make_request embeds `LiteLLMClient._make_request` for one model:
the total counter always advances; success clears the consecutive-error
state; failure advances the failure counters, stores the error, marks
the model unavailable once the consecutive-error count reaches the
model's `max_retries`, and raises `APIError`. -/
def make_request (m : ModelConfig) (st : States) (o : Outcome) :
    States × Except String String :=
  let s0 := st m.model_id
  let s1 := { s0 with total_requests := s0.total_requests + 1 }
  match o with
  | .success t =>
    (updState st m.model_id { s1 with error_count := 0, last_error := none }, .ok t)
  | .failure e =>
    let s2 := { s1 with
      failed_requests := s1.failed_requests + 1,
      error_count := s1.error_count + 1,
      last_error := some e }
    let s3 := if m.max_retries ≤ s2.error_count then { s2 with available := false } else s2
    (updState st m.model_id s3,
     .error ("Request to " ++ m.model_id ++ " failed: " ++ e))

/-- availableOf is the availability filter at the top of
`_select_model`. -/
def availableOf (models : List ModelConfig) (st : States) : List ModelConfig :=
  models.filter (fun m => (st m.model_id).available)

/-- tagFiltered embeds the tag filter of `_select_model`: with truthy
tags, models carrying at least one requested tag are preferred, but an
empty tag match falls back to the whole candidate list. -/
def tagFiltered (ms : List ModelConfig) (tags : Option (List String)) :
    List ModelConfig :=
  match tags with
  | none => ms
  | some ts =>
    if ts = [] then ms
    else
      let tagged := ms.filter (fun m => ts.any (fun t => m.tags.contains t))
      if tagged = [] then ms else tagged

/-- pickFirstMax embeds Python's `max(ms, key=priority)`: the first
element of maximal priority. -/
def pickFirstMax (ms : List ModelConfig) : Option ModelConfig :=
  ms.foldl
    (fun acc m =>
      match acc with
      | none => some m
      | some b => if b.priority < m.priority then some m else some b)
    none

/-- errorRate is the load-balance key of `_select_model`:
`(failed_requests + 1) / max(1, total_requests)`. -/
def errorRate (st : States) (m : ModelConfig) : Rat :=
  ((st m.model_id).failed_requests + 1 : Rat) / (max 1 (st m.model_id).total_requests : Rat)

/-- pickFirstMinRate embeds Python's `min(ms, key=errorRate)`: the first
element of minimal error rate. -/
def pickFirstMinRate (st : States) (ms : List ModelConfig) : Option ModelConfig :=
  ms.foldl
    (fun acc m =>
      match acc with
      | none => some m
      | some b => if errorRate st m < errorRate st b then some m else some b)
    none

/-- select_model embeds `LiteLLMClient._select_model`: filter by
availability (empty pool selects nothing), prefer tagged candidates,
then apply the configured strategy.  The shared round-robin cursor
`_current_model_index` is threaded explicitly and only the round-robin
strategy advances it; `randPick` stands for the external
`random.choice` draw. -/
def select_model (cfg : RouterConfig) (models : List ModelConfig) (st : States)
    (idx : Nat) (tags : Option (List String)) (randPick : Nat) :
    Option ModelConfig × Nat :=
  let avail := availableOf models st
  if avail = [] then (none, idx)
  else
    let cand := tagFiltered avail tags
    if cfg.strategy = "round_robin" then (cand[idx % cand.length]?, idx + 1)
    else if cfg.strategy = "priority" then (pickFirstMax cand, idx)
    else if cfg.strategy = "random" then (cand[randPick % cand.length]?, idx)
    else if cfg.strategy = "load_balance" then (pickFirstMinRate st cand, idx)
    else (cand.head?, idx)

/-- aggMsg is the aggregated failure message raised when the fallback
loop exhausts all attempts; Python renders an absent last error as the
string None. -/
def aggMsg (last_error : Option String) : String :=
  "All models failed. Last error: " ++
    (match last_error with
     | none => "None"
     | some e => e)

/-- FallbackOut packages the observable outcome of
`_request_with_fallback`: the returned text or raised error message, the
models actually attempted in order, the final health states and cursor,
and the last stored underlying error. -/
structure FallbackOut where
  result : Except String String
  attempted : List ModelConfig
  states : States
  idx : Nat
  last_error : Option String

/-- fallbackGo embeds the body of the `for attempt in range(...)` loop of
`_request_with_fallback`: each iteration selects a model (consuming one
attempt even when selection fails or repeats an attempted model), issues
the request, and on failure either re-raises (fallback disabled) or
stores the error and continues; exhausting the range raises the
aggregated failure.  `outcomes` and `randPicks` give the provider
outcome and the random draw of each iteration. -/
def fallbackGo (cfg : RouterConfig) (models : List ModelConfig)
    (tags : Option (List String)) (outcomes : Nat → Outcome)
    (randPicks : Nat → Nat) :
    Nat → Nat → States → Nat → List ModelConfig → Option String → FallbackOut
  | _, 0, st, idx, attempted, le => ⟨.error (aggMsg le), attempted, st, idx, le⟩
  | iter, fuel + 1, st, idx, attempted, le =>
    match select_model cfg models st idx tags (randPicks iter) with
    | (none, idx1) => fallbackGo cfg models tags outcomes randPicks (iter + 1) fuel st idx1 attempted le
    | (some m, idx1) =>
      if m ∈ attempted then
        fallbackGo cfg models tags outcomes randPicks (iter + 1) fuel st idx1 attempted le
      else
        match make_request m st (outcomes iter) with
        | (st1, .ok t) => ⟨.ok t, attempted ++ [m], st1, idx1, le⟩
        | (st1, .error e) =>
          if cfg.fallback_enabled then
            fallbackGo cfg models tags outcomes randPicks (iter + 1) fuel st1 idx1 (attempted ++ [m]) (some e)
          else ⟨.error e, attempted ++ [m], st1, idx1, some e⟩

/-- request_with_fallback embeds `LiteLLMClient._request_with_fallback`. -/
def request_with_fallback (cfg : RouterConfig) (models : List ModelConfig)
    (tags : Option (List String)) (outcomes : Nat → Outcome)
    (randPicks : Nat → Nat) (st : States) (idx : Nat) : FallbackOut :=
  fallbackGo cfg models tags outcomes randPicks 0 cfg.max_fallback_attempts st idx [] none

/-- health_check_step embeds one iteration of the `for model in
self.models` loop of `LiteLLMClient.health_check`: a model whose state
is available is skipped; otherwise a trivial request is issued, and on
its success the model is re-enabled with a cleared consecutive-error
count (a failed probe keeps the updated failure counters). -/
def health_check_step (st : States) (m : ModelConfig) (o : Outcome) : States :=
  if (st m.model_id).available then st
  else
    let st1 := (make_request m st o).1
    match o with
    | .success _ =>
      updState st1 m.model_id
        { st1 m.model_id with available := true, error_count := 0 }
    | .failure _ => st1

/-- health_check embeds `LiteLLMClient.health_check` over the whole model
list; `outcomes` gives each model's probe outcome by `model_id`. -/
def health_check (models : List ModelConfig) (st : States)
    (outcomes : String → Outcome) : States :=
  models.foldl (fun st m => health_check_step st m (outcomes m.model_id)) st

/-- selectSeq iterates `_select_model` `n` times from cursor `idx` with
no intervening request, failure or availability change, returning the
selections in order (the situation of `n` back-to-back selections). -/
def selectSeq (cfg : RouterConfig) (models : List ModelConfig) (st : States)
    (tags : Option (List String)) : Nat → Nat → List (Option ModelConfig)
  | _, 0 => []
  | idx, n + 1 =>
    match select_model cfg models st idx tags 0 with
    | (mo, idx1) => mo :: selectSeq cfg models st tags idx1 n

end LiteLLM

/-- C10: for every analysis request, if the selected model returns an
empty string as its reply, `BaseAiClient.analyze_topic_compliance`
raises an `APIError` to its caller (the error is not among the caught
parse-failure kinds, so the safe default result is not used). -/
theorem C10_empty_reply_raises_APIError (decode : String → Option Py.Json) :
    BaseAi.analyze_topic_compliance decode ""
      = .error (.apiError "Empty response from AI API") := rfl

/-- C1 (amended): on a non-empty model reply that is not valid JSON after
code-fence stripping, neither client raises; but only
`BaseAiClient.analyze_topic_compliance` fails open with
`is_appropriate = true, confidence = 0.0`, while
`LiteLLMClient.analyze_topic_compliance` returns
`is_appropriate = false, confidence = 0.0`. -/
theorem C1_nonjson_reply_defaults (decode : String → Option Py.Json)
    (reply : String)
    (hb : decode (BaseAi.clean_json_from_response reply) = none)
    (hl : decode (LiteLLM.clean_json_response reply) = none) :
    (reply ≠ "" →
      BaseAi.analyze_topic_compliance decode reply = .ok ⟨true, none, 0⟩) ∧
    LiteLLM.analyze_topic_compliance decode reply = .ok ⟨false, none, 0⟩ := by
  constructor
  · intro hne
    unfold BaseAi.analyze_topic_compliance BaseAi.analyzeBody
    rw [if_neg hne, hb]
    rfl
  · unfold LiteLLM.analyze_topic_compliance LiteLLM.analyzeBody
    rw [hl]
    rfl

/-- C1 witness: the amended statement evaluated on the concrete non-JSON
reply "oops" with a decoder that rejects everything. -/
theorem C1_nonjson_reply_defaults_witness :
    BaseAi.analyze_topic_compliance (fun _ => none) "oops" = .ok ⟨true, none, 0⟩ ∧
    LiteLLM.analyze_topic_compliance (fun _ => none) "oops" = .ok ⟨false, none, 0⟩ := by
  have h := C1_nonjson_reply_defaults (fun _ => none) "oops" rfl rfl
  exact ⟨h.1 (by decide), h.2⟩

/-- C1 counterexample: on the concrete non-JSON reply "not json",
`LiteLLMClient.analyze_topic_compliance` returns a result whose
`is_appropriate` is `false`, not `true` as the claim states. -/
theorem C1_litellm_fail_closed_cex :
    LiteLLM.analyze_topic_compliance (fun _ => none) "not json" = .ok ⟨false, none, 0⟩ ∧
    Except.map TopicAnalysisResult.is_appropriate
      (LiteLLM.analyze_topic_compliance (fun _ => none) "not json") = .ok false :=
  ⟨rfl, rfl⟩

/-- C9: for every violation handled by the escalator, if the suggested
topic equals the current topic name then no outbound transport call is
made at all — no reaction call and no reply call, whatever the violation
count and topic table. -/
theorem C9_same_topic_no_outbound_call (recs : ChatMgr.ViolationRecords)
    (now : Int) (existing_topics : String → Option ChatMgr.TopicInfo)
    (customOk : Bool) (suggested_topic current_topic_name : String)
    (h : suggested_topic = current_topic_name) :
    RespMgr.handle_topic_violation recs now existing_topics customOk
      suggested_topic current_topic_name = [] := by
  unfold RespMgr.handle_topic_violation
  rw [if_pos h]

/-- C9 witness: the guard evaluated at a concrete state where the
violation count is 1 and the suggested topic "T" equals the current
topic. -/
theorem C9_same_topic_no_outbound_call_witness :
    RespMgr.handle_topic_violation
      (fun _ => some [⟨1, "T", 2, "T", 0⟩]) 0 (fun _ => none) true "T" "T" = [] :=
  C9_same_topic_no_outbound_call _ 0 _ true "T" "T" rfl

/-- C8: violation histories of distinct topics are independent: recording
in topic Y leaves topic X's recent-violation count unchanged when
X is not Y; a topic with no recorded violations yields count 0 rather
than an error; and after a reset of X, X's count is 0. -/
theorem C8_violation_topics_independent (recs : ChatMgr.ViolationRecords)
    (X Y : String) (uid mid : Int) (sug : String) (now : Int) :
    (X ≠ Y →
      ChatMgr.get_violation_count (ChatMgr.record_violation recs uid Y mid sug now) X now
        = ChatMgr.get_violation_count recs X now) ∧
    (recs X = none → ChatMgr.get_violation_count recs X now = 0) ∧
    ChatMgr.get_violation_count (ChatMgr.reset_violations recs X) X now = 0 := by
  refine ⟨fun hxy => ?_, fun hnone => ?_, ?_⟩
  · unfold ChatMgr.get_violation_count ChatMgr.get_recent_violations
      ChatMgr.record_violation
    simp only [if_neg hxy]
  · unfold ChatMgr.get_violation_count ChatMgr.get_recent_violations
    rw [hnone]
    rfl
  · unfold ChatMgr.get_violation_count ChatMgr.get_recent_violations
      ChatMgr.reset_violations
    simp

/-- C8 witness: independence evaluated at a concrete history holding one
fresh violation in topic "X". -/
theorem C8_violation_topics_independent_witness :
    ChatMgr.get_violation_count
      (ChatMgr.record_violation
        (fun k => if k = "X" then some [⟨1, "X", 2, "B", 0⟩] else none)
        3 "Y" 4 "B" 0) "X" 0
      = ChatMgr.get_violation_count
        (fun k => if k = "X" then some [⟨1, "X", 2, "B", 0⟩] else none) "X" 0 ∧
    ChatMgr.get_violation_count
      (fun k => if k = "X" then some [⟨1, "X", 2, "B", 0⟩] else none) "Z" 0 = 0 := by
  have h := C8_violation_topics_independent
    (fun k => if k = "X" then some [⟨1, "X", 2, "B", 0⟩] else none) "X" "Y" 3 4 "B" 0
  have h2 := C8_violation_topics_independent
    (fun k => if k = "X" then some [⟨1, "X", 2, "B", 0⟩] else none) "Z" "Y" 3 4 "B" 0
  exact ⟨h.1 (by decide), h2.2.1 rfl⟩

/-- C5 counterexample: a concrete compliance analysis returning
`is_appropriate = false` but no suggested topic records nothing: starting
from an empty history, the topic's recent-violation count stays 0, so
recording is not unconditional on `is_appropriate = false`. -/
theorem C5_unconditional_recording_cex :
    (⟨false, none, 0⟩ : TopicAnalysisResult).is_appropriate = false ∧
    ChatMgr.analyze_record_step (fun _ => none) "A" "A" 1 2 ⟨false, none, 0⟩ 0
      = (fun _ => none) ∧
    ChatMgr.get_violation_count
      (ChatMgr.analyze_record_step (fun _ => none) "A" "A" 1 2 ⟨false, none, 0⟩ 0)
      "A" 0 = 0 :=
  ⟨rfl, rfl, rfl⟩

/-- C5 (amended): a violation record is appended to the topic's bounded
queue exactly when the analysis result is inappropriate AND carries a
non-empty suggested topic different from the current topic; when the
suggestion is absent, empty, or equal to the current topic (or the
result is appropriate) nothing is recorded.  The queue is bounded:
appending keeps the length within `VIOLATION_MAX_LENGTH`, and appending
to a full queue evicts the oldest record. -/
theorem C5_conditional_recording_and_bound (recs : ChatMgr.ViolationRecords)
    (current topic : String) (uid mid : Int) (result : TopicAnalysisResult)
    (st : String) (now : Int) (q : List ChatMgr.ViolationRecord)
    (v : ChatMgr.ViolationRecord) :
    (result.suggested_topic = some st → result.is_appropriate = false →
      st ≠ "" → st ≠ current →
      ChatMgr.analyze_record_step recs current topic uid mid result now
        = ChatMgr.record_violation recs uid topic mid st now) ∧
    (result.is_appropriate = true ∨ result.suggested_topic = none ∨
        result.suggested_topic = some "" ∨ result.suggested_topic = some current →
      ChatMgr.analyze_record_step recs current topic uid mid result now = recs) ∧
    (q.length ≤ ChatMgr.VIOLATION_MAX_LENGTH →
      (ChatMgr.dequeAppend ChatMgr.VIOLATION_MAX_LENGTH q v).length
        ≤ ChatMgr.VIOLATION_MAX_LENGTH) ∧
    (q.length = ChatMgr.VIOLATION_MAX_LENGTH →
      ChatMgr.dequeAppend ChatMgr.VIOLATION_MAX_LENGTH q v = q.drop 1 ++ [v]) := by
  refine ⟨fun hsug hia hne hnc => ?_, fun hcases => ?_, fun hlen => ?_, fun hfull => ?_⟩
  · unfold ChatMgr.analyze_record_step
    rw [hsug]
    exact if_pos ⟨hia, hne, hnc⟩
  · unfold ChatMgr.analyze_record_step
    rcases hcases with hia | hnone | hemp | hcur
    · cases hsug : result.suggested_topic with
      | none => rfl
      | some s =>
        show (if result.is_appropriate = false ∧ s ≠ "" ∧ s ≠ current then
          ChatMgr.record_violation recs uid topic mid s now else recs) = recs
        rw [if_neg]
        intro hc
        rw [hia] at hc
        exact Bool.noConfusion hc.1
    · rw [hnone]
    · rw [hemp]
      show (if result.is_appropriate = false ∧ "" ≠ "" ∧ "" ≠ current then
        ChatMgr.record_violation recs uid topic mid "" now else recs) = recs
      rw [if_neg]
      intro hc
      exact hc.2.1 rfl
    · rw [hcur]
      show (if result.is_appropriate = false ∧ current ≠ "" ∧ current ≠ current then
        ChatMgr.record_violation recs uid topic mid current now else recs) = recs
      rw [if_neg]
      intro hc
      exact hc.2.2 rfl
  · unfold ChatMgr.dequeAppend
    split
    · next hlt =>
      rw [List.length_drop]
      omega
    · next hge =>
      rw [List.length_append] at hge ⊢
      simp only [List.length_singleton] at *
      omega
  · unfold ChatMgr.dequeAppend
    have hlt : ChatMgr.VIOLATION_MAX_LENGTH < (q ++ [v]).length := by
      rw [List.length_append, hfull, List.length_singleton]
      omega
    rw [if_pos hlt]
    have h1 : (q ++ [v]).length - ChatMgr.VIOLATION_MAX_LENGTH = 1 := by
      rw [List.length_append, hfull, List.length_singleton]
      omega
    rw [h1, List.drop_append_of_le_length (by rw [hfull]; decide)]

/-- C5 witness: the amended recording condition and queue bound evaluated
on a concrete inappropriate result suggesting topic "B" inside topic
"A". -/
theorem C5_conditional_recording_and_bound_witness :
    ChatMgr.analyze_record_step (fun _ => none) "A" "A" 1 2 ⟨false, some "B", 0⟩ 0
      = ChatMgr.record_violation (fun _ => none) 1 "A" 2 "B" 0 ∧
    (ChatMgr.dequeAppend ChatMgr.VIOLATION_MAX_LENGTH [] ⟨1, "A", 2, "B", 0⟩).length
      ≤ ChatMgr.VIOLATION_MAX_LENGTH := by
  have h := C5_conditional_recording_and_bound (fun _ => none) "A" "A" 1 2
    ⟨false, some "B", 0⟩ "B" 0 [] ⟨1, "A", 2, "B", 0⟩
  exact ⟨h.1 rfl rfl (by decide) (by decide), h.2.2.1 (by decide)⟩

/-- mk_ok_bounds: any result pydantic construction accepts has its
confidence inside the declared bounds. -/
theorem mk_ok_bounds (ia : Bool) (st : Option String) (conf : Rat)
    (r : TopicAnalysisResult) (h : mkTopicAnalysisResult ia st conf = .ok r) :
    0 ≤ r.confidence ∧ r.confidence ≤ 1 := by
  unfold mkTopicAnalysisResult at h
  split at h
  · next hb =>
    cases h
    exact hb
  · exact Except.noConfusion h

/-- analyzeBody_ok_bounds: every result the BaseAiClient try-block
produces went through pydantic construction, so its confidence is inside
the bounds. -/
theorem analyzeBody_ok_bounds (decode : String → Option Py.Json)
    (reply : String) (r : TopicAnalysisResult)
    (h : BaseAi.analyzeBody decode reply = .ok r) :
    0 ≤ r.confidence ∧ r.confidence ≤ 1 := by
  unfold BaseAi.analyzeBody at h
  split at h
  · exact Except.noConfusion h
  · split at h
    · exact Except.noConfusion h
    · split at h
      · exact Except.noConfusion h
      · split at h
        · exact Except.noConfusion h
        · split at h
          · exact Except.noConfusion h
          · exact mk_ok_bounds _ _ _ _ h
    · exact Except.noConfusion h

/-- liteBody_ok_bounds: every result the LiteLLMClient try-block produces
went through pydantic construction, so its confidence is inside the
bounds. -/
theorem liteBody_ok_bounds (decode : String → Option Py.Json)
    (reply : String) (r : TopicAnalysisResult)
    (h : LiteLLM.analyzeBody decode reply = .ok r) :
    0 ≤ r.confidence ∧ r.confidence ≤ 1 := by
  unfold LiteLLM.analyzeBody at h
  split at h
  · exact Except.noConfusion h
  · split at h
    · exact Except.noConfusion h
    · split at h
      · exact Except.noConfusion h
      · exact mk_ok_bounds _ _ _ _ h
  · exact Except.noConfusion h

/-- base_analyze_ok_bounds: any result returned by
`BaseAiClient.analyze_topic_compliance` (through the body or through the
parse-failure fallback) has confidence inside `[0, 1]`. -/
theorem base_analyze_ok_bounds (decode : String → Option Py.Json)
    (reply : String) (r : TopicAnalysisResult)
    (h : BaseAi.analyze_topic_compliance decode reply = .ok r) :
    0 ≤ r.confidence ∧ r.confidence ≤ 1 := by
  unfold BaseAi.analyze_topic_compliance at h
  split at h
  · next r0 heq =>
    cases h
    exact analyzeBody_ok_bounds _ _ _ heq
  · next e heq =>
    split at h
    · cases h
      exact ⟨le_refl 0, by unfold BaseAi.parseFallbackResult; norm_num⟩
    · exact Except.noConfusion h

/-- lite_analyze_ok_bounds: any result returned by
`LiteLLMClient.analyze_topic_compliance` has confidence inside
`[0, 1]`. -/
theorem lite_analyze_ok_bounds (decode : String → Option Py.Json)
    (reply : String) (r : TopicAnalysisResult)
    (h : LiteLLM.analyze_topic_compliance decode reply = .ok r) :
    0 ≤ r.confidence ∧ r.confidence ≤ 1 := by
  unfold LiteLLM.analyze_topic_compliance at h
  split at h
  · next r0 heq =>
    cases h
    exact liteBody_ok_bounds _ _ _ heq
  · next e heq =>
    split at h
    · cases h
      exact ⟨le_refl 0, by unfold LiteLLM.parseFallbackResult; norm_num⟩
    · exact Except.noConfusion h

/-- C4 (amended): every `TopicAnalysisResult` either client actually
returns has its confidence inside `[0, 1]`, but a numeric confidence
outside `[0, 1]` supplied by the model reply is not clamped: pydantic
validation rejects it and `BaseAiClient.analyze_topic_compliance`
raises the validation error (it is not among the caught parse-failure
kinds), so no result is returned for such replies. -/
theorem C4_confidence_validated_not_clamped (decode : String → Option Py.Json)
    (reply : String) (kvs : List (String × Py.Json)) (q : Rat) (ia : Bool)
    (st : Option String) :
    (∀ r, BaseAi.analyze_topic_compliance decode reply = .ok r →
      0 ≤ r.confidence ∧ r.confidence ≤ 1) ∧
    (∀ r, LiteLLM.analyze_topic_compliance decode reply = .ok r →
      0 ≤ r.confidence ∧ r.confidence ≤ 1) ∧
    (reply ≠ "" →
      decode (BaseAi.clean_json_from_response reply) = some (.obj kvs) →
      Py.dictGet kvs "confidence" (.num (1/2)) = .num q →
      q < 0 ∨ 1 < q →
      Py.pydanticBool (Py.dictGet kvs "is_appropriate" (.bool true)) = .ok ia →
      Py.pydanticOptStr (Py.dictGet kvs "suggested_topic" .null) = .ok st →
      BaseAi.analyze_topic_compliance decode reply = .error .validationError) := by
  refine ⟨fun r h => base_analyze_ok_bounds _ _ _ h,
    fun r h => lite_analyze_ok_bounds _ _ _ h,
    fun hne hdec hq hrange hia hst => ?_⟩
  have hbody : BaseAi.analyzeBody decode reply = .error .validationError := by
    unfold BaseAi.analyzeBody
    rw [if_neg hne, hdec]
    show (match Py.pyFloat (Py.dictGet kvs "confidence" (.num (1/2))) with
      | .error e => Except.error e
      | .ok conf =>
        match Py.pydanticBool (Py.dictGet kvs "is_appropriate" (.bool true)) with
        | .error e => Except.error e
        | .ok ia =>
          match Py.pydanticOptStr (Py.dictGet kvs "suggested_topic" .null) with
          | .error e => Except.error e
          | .ok st => mkTopicAnalysisResult ia st conf) = .error .validationError
    rw [hq]
    show (match Py.pydanticBool (Py.dictGet kvs "is_appropriate" (.bool true)) with
      | .error e => Except.error e
      | .ok ia =>
        match Py.pydanticOptStr (Py.dictGet kvs "suggested_topic" .null) with
        | .error e => Except.error e
        | .ok st => mkTopicAnalysisResult ia st q) = .error .validationError
    rw [hia, hst]
    show mkTopicAnalysisResult ia st q = .error .validationError
    unfold mkTopicAnalysisResult
    rw [if_neg]
    rintro ⟨h0, h1⟩
    rcases hrange with hlt | hgt
    · exact absurd h0 (not_le.mpr hlt)
    · exact absurd h1 (not_le.mpr hgt)
  unfold BaseAi.analyze_topic_compliance
  rw [hbody]
  rfl

/-- C4 witness: the amended statement evaluated on a concrete reply whose
decoded object carries the out-of-range numeric confidence 2: the
analysis raises the validation error. -/
theorem C4_confidence_validated_not_clamped_witness :
    BaseAi.analyze_topic_compliance
      (fun _ => some (.obj [("is_appropriate", .bool false), ("confidence", .num 2)])) "x"
      = .error .validationError := by
  have h := C4_confidence_validated_not_clamped
    (fun _ => some (.obj [("is_appropriate", .bool false), ("confidence", .num 2)]))
    "x" [("is_appropriate", .bool false), ("confidence", .num 2)] 2 false none
  exact h.2.2 (by decide) rfl rfl (Or.inr (by norm_num)) rfl rfl

/-- C4 counterexample: on a concrete reply supplying the numeric
confidence 2 (above 1), `BaseAiClient.analyze_topic_compliance` raises
a validation error instead of returning a result with a clamped
confidence; on the numeric confidence -1 it does the same. -/
theorem C4_out_of_range_confidence_cex :
    BaseAi.analyze_topic_compliance
      (fun _ => some (.obj [("is_appropriate", .bool true), ("confidence", .num 2)])) "x"
      = .error .validationError ∧
    BaseAi.analyze_topic_compliance
      (fun _ => some (.obj [("is_appropriate", .bool true), ("confidence", .num (-1))])) "x"
      = .error .validationError :=
  ⟨rfl, rfl⟩

namespace AiConfig

/-- identOfPair maps a (provider, model name) pair to the identifier
string that `get_all_available_models` renders for it. -/
def identOfPair (pn : AIProviderName × String) : String :=
  pn.1.value ++ ":" ++ pn.2

/-- identOfPair_inj: the provider enum values contain no colon and are
pairwise distinct, so the rendered identifier determines the provider
and the model name. -/
theorem identOfPair_inj : Function.Injective identOfPair := by
  rintro ⟨p₁, n₁⟩ ⟨p₂, n₂⟩ h
  obtain ⟨d₁⟩ := n₁
  obtain ⟨d₂⟩ := n₂
  unfold identOfPair at h
  have hd := congrArg String.data h
  simp only [String.data_append] at hd
  cases p₁ <;> cases p₂ <;> simp only [AIProviderName.value] at hd <;>
    simp at hd <;> (subst hd; rfl)

end AiConfig

/-- C6 (amended): a validated pool of N ≥ 1 descriptors yields exactly N
identifiers from `get_all_available_models`; the identifiers are free of
duplicates whenever the (provider, model name) pairs are pairwise
distinct — but pool validation only enforces distinctness of the
(provider, model name, api_key) triples, so two descriptors differing
only in credential render the same identifier twice. -/
theorem C6_pool_identifier_count (models ms : List AiConfig.ModelConfig)
    (h : AiConfig.mkModelPoolConfig models = .ok ms) :
    ms = models ∧
    (AiConfig.get_all_available_models ms).length = models.length ∧
    1 ≤ models.length ∧
    ((models.map (fun m => (m.provider, m.model_name))).Nodup →
      (AiConfig.get_all_available_models ms).Nodup) := by
  unfold AiConfig.mkModelPoolConfig at h
  split at h
  · exact Except.noConfusion h
  · next hne =>
    split at h
    · next hnodup =>
      cases h
      refine ⟨rfl, ?_, ?_, fun hnd => ?_⟩
      · simp [AiConfig.get_all_available_models]
      · have := List.length_pos.mpr hne
        omega
      · have hrw : AiConfig.get_all_available_models models
            = (models.map fun m => (m.provider, m.model_name)).map AiConfig.identOfPair := by
          rw [List.map_map]
          rfl
        rw [hrw]
        exact hnd.map AiConfig.identOfPair_inj
    · exact Except.noConfusion h

/-- C6 witness: the amended statement evaluated on a concrete valid pool
of two descriptors with distinct model names. -/
theorem C6_pool_identifier_count_witness :
    (AiConfig.get_all_available_models
      [{provider := .gemini, model_name := "a", api_key := some "k"},
       {provider := .groq, model_name := "b", api_key := some "k"}]).length = 2 ∧
    (AiConfig.get_all_available_models
      [{provider := .gemini, model_name := "a", api_key := some "k"},
       {provider := .groq, model_name := "b", api_key := some "k"}]).Nodup := by
  have h := C6_pool_identifier_count
    [{provider := .gemini, model_name := "a", api_key := some "k"},
     {provider := .groq, model_name := "b", api_key := some "k"}]
    [{provider := .gemini, model_name := "a", api_key := some "k"},
     {provider := .groq, model_name := "b", api_key := some "k"}]
    rfl
  exact ⟨h.2.1, h.2.2.2 (by decide)⟩

/-- C6 counterexample: two descriptors sharing provider "gemini" and
model name "m" but holding different credentials pass pool validation
(their triples differ), yet `get_all_available_models` returns the
identifier "gemini:m" twice — N identifiers, but with duplicates. -/
theorem C6_duplicate_identifier_cex :
    AiConfig.mkModelPoolConfig
      [{provider := .gemini, model_name := "m", api_key := some "k1"},
       {provider := .gemini, model_name := "m", api_key := some "k2"}]
      = .ok [{provider := .gemini, model_name := "m", api_key := some "k1"},
             {provider := .gemini, model_name := "m", api_key := some "k2"}] ∧
    AiConfig.get_all_available_models
      [{provider := .gemini, model_name := "m", api_key := some "k1"},
       {provider := .gemini, model_name := "m", api_key := some "k2"}]
      = ["gemini:m", "gemini:m"] ∧
    ¬ (AiConfig.get_all_available_models
      [{provider := .gemini, model_name := "m", api_key := some "k1"},
       {provider := .gemini, model_name := "m", api_key := some "k2"}]).Nodup := by
  refine ⟨rfl, rfl, by decide⟩

namespace LiteLLM

/-- updState_self: reading back the key just written. -/
theorem updState_self (st : States) (id : String) (s : ModelState) :
    updState st id s id = s := by
  unfold updState
  rw [if_pos rfl]

/-- updState_other: writing one key leaves every other key unchanged. -/
theorem updState_other (st : States) (id : String) (s : ModelState)
    (k : String) (hk : k ≠ id) : updState st id s k = st k := by
  unfold updState
  rw [if_neg hk]

/-- make_request_other: a request to model `m` only writes `m`'s own
entry of the health-state dictionary. -/
theorem make_request_other (m : ModelConfig) (st : States) (o : Outcome)
    (k : String) (hk : k ≠ m.model_id) :
    (make_request m st o).1 k = st k := by
  unfold make_request
  cases o <;> exact updState_other st m.model_id _ k hk

/-- health_check_step_other: probing model `m` only writes `m`'s own
entry of the health-state dictionary. -/
theorem health_check_step_other (st : States) (m : ModelConfig) (o : Outcome)
    (k : String) (hk : k ≠ m.model_id) :
    health_check_step st m o k = st k := by
  unfold health_check_step
  split
  · rfl
  · cases o
    · show updState (make_request m st _).1 m.model_id _ k = st k
      rw [updState_other _ _ _ k hk]
      exact make_request_other m st _ k hk
    · exact make_request_other m st _ k hk

/-- health_check_step_self_success: a successful probe of an unavailable
model re-enables it and clears its consecutive-error count. -/
theorem health_check_step_self_success (st : States) (m : ModelConfig)
    (t : String) (hun : (st m.model_id).available = false) :
    ((health_check_step st m (.success t)) m.model_id).available = true ∧
    ((health_check_step st m (.success t)) m.model_id).error_count = 0 := by
  unfold health_check_step
  rw [if_neg (by rw [hun]; exact Bool.false_ne_true)]
  constructor
  · show ((updState (make_request m st _).1 m.model_id _) m.model_id).available = true
    rw [updState_self]
  · show ((updState (make_request m st _).1 m.model_id _) m.model_id).error_count = 0
    rw [updState_self]

/-- health_check_frame: the health sweep leaves a key untouched when no
probed model owns it. -/
theorem health_check_frame (models : List ModelConfig) (st : States)
    (outcomes : String → Outcome) (k : String)
    (hk : ∀ m' ∈ models, m'.model_id ≠ k) :
    health_check models st outcomes k = st k := by
  induction models generalizing st with
  | nil => rfl
  | cons hd tl ih =>
    show health_check tl (health_check_step st hd (outcomes hd.model_id)) outcomes k = st k
    rw [ih _ (fun m' hm' => hk m' (List.mem_cons_of_mem _ hm'))]
    exact health_check_step_other st hd _ k
      (fun h => hk hd (List.mem_cons_self hd tl) h.symm)

/-- health_check_recovers: after a health sweep in which the probe of an
unavailable pool member `m` succeeds, `m` is available again with a
cleared consecutive-error count (model ids are assumed pairwise
distinct, as the state dictionary is keyed by them). -/
theorem health_check_recovers (models : List ModelConfig) (st : States)
    (outcomes : String → Outcome) (m : ModelConfig) (t : String)
    (hmem : m ∈ models) (hnd : (models.map ModelConfig.model_id).Nodup)
    (hun : (st m.model_id).available = false)
    (ho : outcomes m.model_id = .success t) :
    ((health_check models st outcomes) m.model_id).available = true ∧
    ((health_check models st outcomes) m.model_id).error_count = 0 := by
  induction models generalizing st with
  | nil => cases hmem
  | cons hd tl ih =>
    rw [List.map_cons, List.nodup_cons] at hnd
    have hcons : health_check (hd :: tl) st outcomes
        = health_check tl (health_check_step st hd (outcomes hd.model_id)) outcomes := rfl
    rw [hcons]
    rcases List.mem_cons.mp hmem with heq | htl
    · subst heq
      rw [health_check_frame tl _ outcomes m.model_id
        (fun m' hm' h => hnd.1 (h ▸ List.mem_map_of_mem ModelConfig.model_id hm'))]
      rw [ho]
      exact health_check_step_self_success st m t hun
    · have hne : hd.model_id ≠ m.model_id := by
        intro h
        exact hnd.1 (h ▸ List.mem_map_of_mem ModelConfig.model_id htl)
      have hstep := health_check_step_other st hd (outcomes hd.model_id) m.model_id
        (fun h => hne h.symm)
      exact ih _ htl hnd.2 (by rw [hstep]; exact hun)

end LiteLLM

/-- C3: a model's available flag is cleared by a failed request exactly
when the consecutive-error count reaches the model's `max_retries`
(each failure advances the count by one, and an already-unavailable
model stays unavailable); and a subsequent successful health probe of an
unavailable pool member restores `available = true` and resets the
consecutive-error count to zero. -/
theorem C3_availability_threshold_and_probe (m : LiteLLM.ModelConfig)
    (st : LiteLLM.States) (e : String) (models : List LiteLLM.ModelConfig)
    (st2 : LiteLLM.States) (outcomes : String → LiteLLM.Outcome) (t : String) :
    (((LiteLLM.make_request m st (.failure e)).1 m.model_id).error_count
        = (st m.model_id).error_count + 1 ∧
      (((LiteLLM.make_request m st (.failure e)).1 m.model_id).available = false ↔
        ((st m.model_id).available = false ∨
          m.max_retries ≤ (st m.model_id).error_count + 1))) ∧
    (m ∈ models → (models.map LiteLLM.ModelConfig.model_id).Nodup →
      (st2 m.model_id).available = false → outcomes m.model_id = .success t →
      ((LiteLLM.health_check models st2 outcomes) m.model_id).available = true ∧
      ((LiteLLM.health_check models st2 outcomes) m.model_id).error_count = 0) := by
  constructor
  · simp only [LiteLLM.make_request, LiteLLM.updState_self]
    constructor
    · split <;> rfl
    · split
      · next hthr =>
        constructor
        · intro _
          exact Or.inr hthr
        · intro _
          rfl
      · next hthr =>
        constructor
        · exact Or.inl
        · rintro (h | h)
          · exact h
          · exact absurd h hthr
  · exact fun hmem hnd hun ho =>
      LiteLLM.health_check_recovers models st2 outcomes m t hmem hnd hun ho

/-- C3 witness: a model with `max_retries = 2` and one prior consecutive
error becomes unavailable on the next failure, and a successful probe of
the resulting unavailable model restores it with a zero count. -/
theorem C3_availability_threshold_and_probe_witness :
    ((LiteLLM.make_request
        {name := "a", provider := "groq", api_key := "k", max_retries := 2}
        (fun _ => {error_count := 1, total_requests := 1, failed_requests := 1})
        (.failure "boom")).1 "groq/a").available = false ∧
    ((LiteLLM.health_check
        [{name := "a", provider := "groq", api_key := "k", max_retries := 2}]
        (fun _ => {available := false, error_count := 2, total_requests := 2, failed_requests := 2})
        (fun _ => .success "Hi")) "groq/a").available = true ∧
    ((LiteLLM.health_check
        [{name := "a", provider := "groq", api_key := "k", max_retries := 2}]
        (fun _ => {available := false, error_count := 2, total_requests := 2, failed_requests := 2})
        (fun _ => .success "Hi")) "groq/a").error_count = 0 := by
  have h := C3_availability_threshold_and_probe
    {name := "a", provider := "groq", api_key := "k", max_retries := 2}
    (fun _ => {error_count := 1, total_requests := 1, failed_requests := 1})
    "boom"
    [{name := "a", provider := "groq", api_key := "k", max_retries := 2}]
    (fun _ => {available := false, error_count := 2, total_requests := 2, failed_requests := 2})
    (fun _ => .success "Hi") "Hi"
  refine ⟨?_, ?_, ?_⟩
  · exact h.1.2.mpr (Or.inr (by decide))
  · exact (h.2 (List.mem_singleton.mpr rfl) (List.nodup_singleton _) rfl rfl).1
  · exact (h.2 (List.mem_singleton.mpr rfl) (List.nodup_singleton _) rfl rfl).2

namespace LiteLLM

/-- select_model_round_robin: with the round-robin strategy and a
non-empty availability filter (and no tag filter), `_select_model`
returns the candidate at the cursor position modulo the pool size and
advances the shared cursor by one. -/
theorem select_model_round_robin (cfg : RouterConfig)
    (models : List ModelConfig) (st : States) (idx : Nat)
    (hstrat : cfg.strategy = "round_robin")
    (hav : availableOf models st ≠ []) :
    select_model cfg models st idx none 0
      = ((availableOf models st)[idx % (availableOf models st).length]?, idx + 1) := by
  unfold select_model
  rw [if_neg hav]
  show (if cfg.strategy = "round_robin" then _ else _) = _
  rw [if_pos hstrat]
  rfl

/-- selectSeq_round_robin_formula: n consecutive round-robin selections
from cursor `idx` with an unchanged state read the available list at the
positions `idx % N, (idx+1) % N, ...`. -/
theorem selectSeq_round_robin_formula (cfg : RouterConfig)
    (models : List ModelConfig) (st : States)
    (hstrat : cfg.strategy = "round_robin")
    (hav : availableOf models st ≠ []) :
    ∀ (n idx : Nat),
    selectSeq cfg models st none idx n
      = (List.range n).map
          (fun k => (availableOf models st)[(idx + k) % (availableOf models st).length]?) := by
  intro n
  induction n with
  | zero => intro idx; rfl
  | succ n ih =>
    intro idx
    show (match select_model cfg models st idx none 0 with
      | (mo, idx1) => mo :: selectSeq cfg models st none idx1 n) = _
    rw [select_model_round_robin cfg models st idx hstrat hav]
    show (availableOf models st)[idx % (availableOf models st).length]?
        :: selectSeq cfg models st none (idx + 1) n = _
    rw [ih (idx + 1)]
    rw [List.range_succ_eq_map, List.map_cons, List.map_map]
    congr 1
    apply List.map_congr_left
    intro k _
    show (availableOf models st)[(idx + 1 + k) % (availableOf models st).length]?
        = (availableOf models st)[(idx + (k + 1)) % (availableOf models st).length]?
    have harith : idx + 1 + k = idx + (k + 1) := by omega
    rw [harith]

/-- range_map_getElem_eq_rotate: reading a non-empty list at positions
`idx % N, (idx+1) % N, ...` for one full cycle yields exactly its
rotation by `idx`. -/
theorem range_map_getElem_eq_rotate {α : Type} (l : List α) (idx : Nat)
    (h : l ≠ []) :
    (List.range l.length).map (fun k => l[(idx + k) % l.length]?)
      = (l.rotate idx).map some := by
  have hlen : 0 < l.length := List.length_pos.mpr h
  apply List.ext_getElem?
  intro k
  rcases Nat.lt_or_ge k l.length with hk | hk
  · rw [List.getElem?_map, List.getElem?_map, List.getElem?_range hk,
      List.getElem?_rotate hk]
    show some (l[(idx + k) % l.length]?) = Option.map some l[(k + idx) % l.length]?
    rw [Nat.add_comm idx k]
    have hlt : (k + idx) % l.length < l.length := Nat.mod_lt _ hlen
    rw [List.getElem?_eq_getElem hlt]
    rfl
  · rw [List.getElem?_eq_none, List.getElem?_eq_none]
    · rw [List.length_map, List.length_rotate]
      exact hk
    · rw [List.length_map, List.length_range]
      exact hk

end LiteLLM

/-- C7: under the round_robin strategy, for every pool whose availability
filter yields N ≥ 1 models and every starting cursor, N consecutive
selections with no intervening failures or availability changes read off
exactly the rotation of the available list by the starting cursor — a
permutation of the available list — so, the available list being free of
duplicates, every model is selected exactly once. -/
theorem C7_round_robin_visits_each_once (cfg : LiteLLM.RouterConfig)
    (models : List LiteLLM.ModelConfig) (st : LiteLLM.States) (idx : Nat)
    (hstrat : cfg.strategy = "round_robin")
    (hav : LiteLLM.availableOf models st ≠ []) :
    LiteLLM.selectSeq cfg models st none idx (LiteLLM.availableOf models st).length
      = ((LiteLLM.availableOf models st).rotate idx).map some ∧
    (LiteLLM.selectSeq cfg models st none idx
      (LiteLLM.availableOf models st).length).Perm
        ((LiteLLM.availableOf models st).map some) ∧
    (∀ mc, (LiteLLM.availableOf models st).Nodup →
      mc ∈ LiteLLM.availableOf models st →
      ((LiteLLM.availableOf models st).rotate idx).count mc = 1) := by
  have hseq := LiteLLM.selectSeq_round_robin_formula cfg models st hstrat hav
    (LiteLLM.availableOf models st).length idx
  have hrot := LiteLLM.range_map_getElem_eq_rotate (LiteLLM.availableOf models st) idx hav
  have hmain := hseq.trans hrot
  refine ⟨hmain, ?_, fun mc hnd hmem => ?_⟩
  · rw [hmain]
    exact (List.rotate_perm _ idx).map some
  · exact List.count_eq_one_of_mem
      (((List.rotate_perm _ idx).nodup_iff).mpr hnd)
      (List.mem_rotate.mpr hmem)

/-- C7 witness: a two-model pool under round_robin, starting at cursor 5,
selects model b then model a — each available model exactly once. -/
theorem C7_round_robin_visits_each_once_witness :
    LiteLLM.selectSeq {}
      [{name := "a", provider := "groq", api_key := "k", temperature := 1},
       {name := "b", provider := "groq", api_key := "k", temperature := 1}]
      LiteLLM.initStates none 5 2
      = [some {name := "b", provider := "groq", api_key := "k", temperature := 1},
         some {name := "a", provider := "groq", api_key := "k", temperature := 1}] ∧
    ((LiteLLM.availableOf
      [{name := "a", provider := "groq", api_key := "k", temperature := 1},
       {name := "b", provider := "groq", api_key := "k", temperature := 1}]
      LiteLLM.initStates).rotate 5).count
        {name := "a", provider := "groq", api_key := "k", temperature := 1} = 1 := by
  have h := C7_round_robin_visits_each_once {}
    [{name := "a", provider := "groq", api_key := "k", temperature := 1},
     {name := "b", provider := "groq", api_key := "k", temperature := 1}]
    LiteLLM.initStates 5 rfl (by decide)
  exact ⟨h.1.trans rfl,
    h.2.2 {name := "a", provider := "groq", api_key := "k", temperature := 1}
      (by decide) (by decide)⟩

namespace LiteLLM

/-- fallbackGo_zero: an exhausted attempt range raises the single
aggregated failure built from the stored last error. -/
theorem fallbackGo_zero (cfg : RouterConfig) (models : List ModelConfig)
    (tags : Option (List String)) (outcomes : Nat → Outcome)
    (randPicks : Nat → Nat) (iter : Nat) (st : States) (idx : Nat)
    (attempted : List ModelConfig) (le : Option String) :
    fallbackGo cfg models tags outcomes randPicks iter 0 st idx attempted le
      = ⟨.error (aggMsg le), attempted, st, idx, le⟩ := rfl

/-- fallbackGo_succ_none: an iteration in which no model can be selected
consumes the attempt and continues. -/
theorem fallbackGo_succ_none (cfg : RouterConfig) (models : List ModelConfig)
    (tags : Option (List String)) (outcomes : Nat → Outcome)
    (randPicks : Nat → Nat) (iter fuel : Nat) (st : States) (idx idx1 : Nat)
    (attempted : List ModelConfig) (le : Option String)
    (hsel : select_model cfg models st idx tags (randPicks iter) = (none, idx1)) :
    fallbackGo cfg models tags outcomes randPicks iter (fuel + 1) st idx attempted le
      = fallbackGo cfg models tags outcomes randPicks (iter + 1) fuel st idx1 attempted le := by
  simp only [fallbackGo, hsel]

/-- fallbackGo_succ_mem: an iteration that selects an already-attempted
model consumes the attempt and continues without re-invoking it. -/
theorem fallbackGo_succ_mem (cfg : RouterConfig) (models : List ModelConfig)
    (tags : Option (List String)) (outcomes : Nat → Outcome)
    (randPicks : Nat → Nat) (iter fuel : Nat) (st : States) (idx idx1 : Nat)
    (attempted : List ModelConfig) (le : Option String) (m : ModelConfig)
    (hsel : select_model cfg models st idx tags (randPicks iter) = (some m, idx1))
    (hmem : m ∈ attempted) :
    fallbackGo cfg models tags outcomes randPicks iter (fuel + 1) st idx attempted le
      = fallbackGo cfg models tags outcomes randPicks (iter + 1) fuel st idx1 attempted le := by
  simp only [fallbackGo, hsel]
  rw [if_pos hmem]

/-- fallbackGo_succ_ok: an iteration whose request succeeds returns that
reply at once. -/
theorem fallbackGo_succ_ok (cfg : RouterConfig) (models : List ModelConfig)
    (tags : Option (List String)) (outcomes : Nat → Outcome)
    (randPicks : Nat → Nat) (iter fuel : Nat) (st st1 : States) (idx idx1 : Nat)
    (attempted : List ModelConfig) (le : Option String) (m : ModelConfig) (t : String)
    (hsel : select_model cfg models st idx tags (randPicks iter) = (some m, idx1))
    (hmem : m ∉ attempted)
    (hmr : make_request m st (outcomes iter) = (st1, .ok t)) :
    fallbackGo cfg models tags outcomes randPicks iter (fuel + 1) st idx attempted le
      = ⟨.ok t, attempted ++ [m], st1, idx1, le⟩ := by
  simp only [fallbackGo, hsel]
  rw [if_neg hmem, hmr]

/-- fallbackGo_succ_err: with fallback enabled, an iteration whose
request fails stores that error and continues with the model recorded as
attempted. -/
theorem fallbackGo_succ_err (cfg : RouterConfig) (models : List ModelConfig)
    (tags : Option (List String)) (outcomes : Nat → Outcome)
    (randPicks : Nat → Nat) (iter fuel : Nat) (st st1 : States) (idx idx1 : Nat)
    (attempted : List ModelConfig) (le : Option String) (m : ModelConfig) (e : String)
    (hsel : select_model cfg models st idx tags (randPicks iter) = (some m, idx1))
    (hmem : m ∉ attempted)
    (hmr : make_request m st (outcomes iter) = (st1, .error e))
    (hfb : cfg.fallback_enabled = true) :
    fallbackGo cfg models tags outcomes randPicks iter (fuel + 1) st idx attempted le
      = fallbackGo cfg models tags outcomes randPicks (iter + 1) fuel st1 idx1
          (attempted ++ [m]) (some e) := by
  simp only [fallbackGo, hsel]
  rw [if_neg hmem, hmr]
  show (if cfg.fallback_enabled = true then _ else _) = _
  rw [if_pos hfb]

end LiteLLM

namespace LiteLLM

/-- fallbackGo_spec: invariants of the fallback loop, by induction over
the remaining attempt range: the attempted-model list stays free of
duplicates (a model is never invoked twice), it grows by at most the
remaining number of attempts, and an error result is exactly the
aggregated message over the stored last error, which is present whenever
any model was actually attempted. -/
theorem fallbackGo_spec (cfg : RouterConfig) (models : List ModelConfig)
    (tags : Option (List String)) (outcomes : Nat → Outcome)
    (randPicks : Nat → Nat) (hfb : cfg.fallback_enabled = true) :
    ∀ (fuel iter : Nat) (st : States) (idx : Nat)
      (attempted : List ModelConfig) (le : Option String),
    attempted.Nodup →
    (attempted ≠ [] → le ≠ none) →
    (fallbackGo cfg models tags outcomes randPicks iter fuel st idx attempted le).attempted.Nodup ∧
    (fallbackGo cfg models tags outcomes randPicks iter fuel st idx attempted le).attempted.length
      ≤ attempted.length + fuel ∧
    (∀ msg,
      (fallbackGo cfg models tags outcomes randPicks iter fuel st idx attempted le).result
        = .error msg →
      msg = aggMsg (fallbackGo cfg models tags outcomes randPicks iter fuel st idx attempted le).last_error ∧
      ((fallbackGo cfg models tags outcomes randPicks iter fuel st idx attempted le).attempted ≠ [] →
        (fallbackGo cfg models tags outcomes randPicks iter fuel st idx attempted le).last_error ≠ none)) := by
  intro fuel
  induction fuel with
  | zero =>
    intro iter st idx attempted le hnd hinv
    rw [fallbackGo_zero]
    refine ⟨hnd, Nat.le_refl _, fun msg hmsg => ⟨?_, fun hne => hinv hne⟩⟩
    cases hmsg
    rfl
  | succ fuel ih =>
    intro iter st idx attempted le hnd hinv
    rcases hsel : select_model cfg models st idx tags (randPicks iter) with ⟨mo, idx1⟩
    cases mo with
    | none =>
      rw [fallbackGo_succ_none cfg models tags outcomes randPicks iter fuel st idx idx1
        attempted le hsel]
      obtain ⟨h1, h2, h3⟩ := ih (iter + 1) st idx1 attempted le hnd hinv
      exact ⟨h1, Nat.le_succ_of_le h2, h3⟩
    | some m =>
      by_cases hmem : m ∈ attempted
      · rw [fallbackGo_succ_mem cfg models tags outcomes randPicks iter fuel st idx idx1
          attempted le m hsel hmem]
        obtain ⟨h1, h2, h3⟩ := ih (iter + 1) st idx1 attempted le hnd hinv
        exact ⟨h1, Nat.le_succ_of_le h2, h3⟩
      · have hnd1 : (attempted ++ [m]).Nodup := by
          have h := List.Nodup.concat hmem hnd
          rw [List.concat_eq_append] at h
          exact h
        rcases hmr : make_request m st (outcomes iter) with ⟨st1, res⟩
        cases res with
        | ok t =>
          rw [fallbackGo_succ_ok cfg models tags outcomes randPicks iter fuel st st1 idx idx1
            attempted le m t hsel hmem hmr]
          refine ⟨hnd1, ?_, fun msg hmsg => Except.noConfusion hmsg⟩
          rw [List.length_append, List.length_singleton]
          omega
        | error e =>
          rw [fallbackGo_succ_err cfg models tags outcomes randPicks iter fuel st st1 idx idx1
            attempted le m e hsel hmem hmr hfb]
          obtain ⟨h1, h2, h3⟩ := ih (iter + 1) st1 idx1 (attempted ++ [m]) (some e) hnd1
            (fun _ hcontra => Option.noConfusion hcontra)
          refine ⟨h1, ?_, h3⟩
          rw [List.length_append, List.length_singleton] at h2
          omega

end LiteLLM

/-- C2: with fallback enabled, for every logical request the router
never invokes a model already attempted in that request (the attempted
list is duplicate-free), makes at most `max_fallback_attempts` attempts
in total, and if it returns an error it is the single aggregated failure
message referencing the stored last underlying error — which is present
whenever at least one model was actually invoked. -/
theorem C2_fallback_protocol (cfg : LiteLLM.RouterConfig)
    (models : List LiteLLM.ModelConfig) (tags : Option (List String))
    (outcomes : Nat → LiteLLM.Outcome) (randPicks : Nat → Nat)
    (st : LiteLLM.States) (idx : Nat)
    (hfb : cfg.fallback_enabled = true) :
    (LiteLLM.request_with_fallback cfg models tags outcomes randPicks st idx).attempted.Nodup ∧
    (LiteLLM.request_with_fallback cfg models tags outcomes randPicks st idx).attempted.length
      ≤ cfg.max_fallback_attempts ∧
    (∀ msg,
      (LiteLLM.request_with_fallback cfg models tags outcomes randPicks st idx).result
        = .error msg →
      msg = LiteLLM.aggMsg
        (LiteLLM.request_with_fallback cfg models tags outcomes randPicks st idx).last_error ∧
      ((LiteLLM.request_with_fallback cfg models tags outcomes randPicks st idx).attempted ≠ [] →
        (LiteLLM.request_with_fallback cfg models tags outcomes randPicks st idx).last_error
          ≠ none)) := by
  have h := LiteLLM.fallbackGo_spec cfg models tags outcomes randPicks hfb
    cfg.max_fallback_attempts 0 st idx [] none List.nodup_nil (fun hne => absurd rfl hne)
  obtain ⟨h1, h2, h3⟩ := h
  rw [List.length_nil, Nat.zero_add] at h2
  exact ⟨h1, h2, h3⟩

/-- C2 witness: a two-model pool under round_robin where every provider
call fails: the protocol attempts distinct models within the attempt
budget, and the aggregated failure names the last underlying error. -/
theorem C2_fallback_protocol_witness :
    (LiteLLM.request_with_fallback {}
      [{name := "a", provider := "groq", api_key := "k", temperature := 1},
       {name := "b", provider := "groq", api_key := "k", temperature := 1}]
      none (fun _ => .failure "boom") (fun _ => 0) LiteLLM.initStates 0).attempted.Nodup ∧
    (LiteLLM.request_with_fallback {}
      [{name := "a", provider := "groq", api_key := "k", temperature := 1},
       {name := "b", provider := "groq", api_key := "k", temperature := 1}]
      none (fun _ => .failure "boom") (fun _ => 0) LiteLLM.initStates 0).attempted.length
      ≤ ({} : LiteLLM.RouterConfig).max_fallback_attempts ∧
    (LiteLLM.request_with_fallback {}
      [{name := "a", provider := "groq", api_key := "k", temperature := 1},
       {name := "b", provider := "groq", api_key := "k", temperature := 1}]
      none (fun _ => .failure "boom") (fun _ => 0) LiteLLM.initStates 0).result
      = .error "All models failed. Last error: Request to groq/b failed: boom" := by
  have h := C2_fallback_protocol {}
    [{name := "a", provider := "groq", api_key := "k", temperature := 1},
     {name := "b", provider := "groq", api_key := "k", temperature := 1}]
    none (fun _ => .failure "boom") (fun _ => 0) LiteLLM.initStates 0 rfl
  exact ⟨h.1, h.2.1, rfl⟩
